import Mathlib

/-!
Verification of the client-side OCR field-extraction pipeline
(`src/services/ocrService.ts`) of the institute-auth-pad repository.

The TypeScript source is shallowly embedded: JavaScript strings become
`List Char`, the regular expressions used by `parseCertificateText` and
`extractFromFormFields` are transcribed into an executable backtracking
matcher (`RE` / `matchRE` / `execMatch`) that follows ECMAScript
semantics for the constructs the source uses (leftmost match, ordered
alternation, greedy quantifiers, one level of capture groups, negative
lookahead), and the mutation of the `extracted` accumulator becomes
explicit record updates.
-/

namespace OCR

abbrev Str := List Char

/-! ### Character classes (ECMAScript semantics) -/

def isUpperC (c : Char) : Bool := 'A' ≤ c && c ≤ 'Z'

def isLowerC (c : Char) : Bool := 'a' ≤ c && c ≤ 'z'

def isDigitC (c : Char) : Bool := '0' ≤ c && c ≤ '9'

def isAlphaC (c : Char) : Bool := isUpperC c || isLowerC c

/-- JS `\w`: ASCII letters, digits and underscore. -/
def isWordC (c : Char) : Bool := isAlphaC c || isDigitC c || c = '_'

/-- JS `\s`: whitespace and line terminators (ECMA-262 WhiteSpace ∪ LineTerminator). -/
def isJsSpace (c : Char) : Bool :=
  c.toNat = 0x09 || c.toNat = 0x0A || c.toNat = 0x0B || c.toNat = 0x0C ||
  c.toNat = 0x0D || c.toNat = 0x20 || c.toNat = 0xA0 || c.toNat = 0x1680 ||
  (0x2000 ≤ c.toNat && c.toNat ≤ 0x200A) || c.toNat = 0x2028 ||
  c.toNat = 0x2029 || c.toNat = 0x202F || c.toNat = 0x205F ||
  c.toNat = 0x3000 || c.toNat = 0xFEFF

/-- JS `.` without the `s` flag: anything but a line terminator. -/
def isDotC (c : Char) : Bool :=
  !(c.toNat = 0x0A || c.toNat = 0x0D || c.toNat = 0x2028 || c.toNat = 0x2029)

def lowerChar (c : Char) : Char :=
  if isUpperC c then Char.ofNat (c.toNat + 32) else c

def lowerStr (l : Str) : Str := l.map lowerChar

/-! ### Plain string operations used by the source -/

/-- JS `String.prototype.includes`. -/
def containsSub (needle hay : Str) : Bool :=
  if needle.isPrefixOf hay then true
  else match hay with
    | [] => false
    | _ :: t => containsSub needle t

/-- JS `split` on a single-character string separator (`value.split(' ')`,
`cleanedText.split('\n')`): one segment per occurrence, keeping empties. -/
def splitOnChar (sep : Char) : Str → List Str
  | [] => [[]]
  | c :: rest =>
    if c = sep then [] :: splitOnChar sep rest
    else match splitOnChar sep rest with
      | [] => [[c]]
      | s :: ss => (c :: s) :: ss

/-- JS `split` on a character-class-run regex such as `/[\s,]+/`:
each maximal run of separator characters is one split point.  A separator
character only opens a new segment when it is the last of its run. -/
def splitOnRuns (p : Char → Bool) : Str → List Str
  | [] => [[]]
  | c :: rest =>
    let r := splitOnRuns p rest
    if p c then
      match rest with
      | [] => [] :: r
      | d :: _ => if p d then r else [] :: r
    else
      match r with
      | [] => [[c]]
      | s :: ss => (c :: s) :: ss

/-- JS `.replace(/\s+/g, ' ')`: every maximal whitespace run becomes a
single space. -/
def collapseWS : Str → Str
  | [] => []
  | [c] => if isJsSpace c then [' '] else [c]
  | a :: b :: rest =>
    if isJsSpace a && isJsSpace b then collapseWS (b :: rest)
    else (if isJsSpace a then ' ' else a) :: collapseWS (b :: rest)

/-- JS `String.prototype.trim` (both ends). -/
def trimStr (l : Str) : Str :=
  ((l.dropWhile isJsSpace).reverse.dropWhile isJsSpace).reverse

/-- JS `String.prototype.padStart(n, fill)`. -/
def padStart (n : Nat) (fill : Char) (s : Str) : Str :=
  List.replicate (n - s.length) fill ++ s

/-- Decimal rendering of a `Nat` (JS `String(n)` for the month index). -/
def natToDec (n : Nat) : Str := Nat.toDigits 10 n

/-! ### The regular-expression engine

A small backtracking matcher with ECMAScript behaviour for the features
the source's patterns use.  `rep min max r` is a greedy counted repeat
(`max = none` means unbounded); `grp` is a capture group, captures are
collected left-to-right; `nla` is negative lookahead `(?!...)`; `eos` is
the `$` anchor.  Matching is fuelled; the fuel passed by `execMatch` is
far larger than any backtracking depth the transcribed patterns reach. -/

inductive RE where
  | eps  : RE
  | cls  : (Char → Bool) → RE
  | seq  : RE → RE → RE
  | alt  : RE → RE → RE
  | rep  : Nat → Option Nat → RE → RE
  | grp  : RE → RE
  | nla  : RE → RE
  | eos  : RE

def matchRE : Nat → RE → Str → List Str →
    (Str → List Str → Option (Str × List Str)) → Option (Str × List Str)
  | 0, _, _, _, _ => none
  | _ + 1, .eps, inp, caps, k => k inp caps
  | _ + 1, .eos, inp, caps, k => if inp.isEmpty then k inp caps else none
  | _ + 1, .cls p, inp, caps, k =>
    match inp with
    | [] => none
    | c :: rest => if p c then k rest caps else none
  | fuel + 1, .seq a b, inp, caps, k =>
    matchRE fuel a inp caps (fun i cs => matchRE fuel b i cs k)
  | fuel + 1, .alt a b, inp, caps, k =>
    match matchRE fuel a inp caps k with
    | some r => some r
    | none => matchRE fuel b inp caps k
  | fuel + 1, .rep mn mx r, inp, caps, k =>
    let canGo := match mx with | some 0 => false | _ => true
    let goRes :=
      if canGo then
        matchRE fuel r inp caps (fun i cs =>
          if inp.length ≤ i.length then none
          else matchRE fuel (.rep (mn - 1) (mx.map (· - 1)) r) i cs k)
      else none
    match goRes with
    | some res => some res
    | none => if mn = 0 then k inp caps else none
  | fuel + 1, .grp r, inp, caps, k =>
    matchRE fuel r inp caps
      (fun i cs => k i (cs ++ [inp.take (inp.length - i.length)]))
  | fuel + 1, .nla r, inp, caps, k =>
    match matchRE fuel r inp caps (fun i cs => some (i, cs)) with
    | some _ => none
    | none => k inp caps

def matchFuel (s : Str) : Nat := (s.length + 2) * 400

/-- One anchored match attempt at the start of `s`:
returns `(match0, captures)` on success. -/
def execAt (re : RE) (s : Str) : Option (Str × List Str) :=
  match matchRE (matchFuel s) re s [] (fun i cs => some (i, cs)) with
  | some (restAfter, caps) => some (s.take (s.length - restAfter.length), caps)
  | none => none

/-- JS `String.prototype.match` with a non-global regex: leftmost match,
returned as `(text before the match, match[0], captured groups)`. -/
def execMatchGo (re : RE) : Str → Str → Option (Str × Str × List Str)
  | suf, preRev =>
    match execAt re suf with
    | some (m0, caps) => some (preRev.reverse, m0, caps)
    | none =>
      match suf with
      | [] => none
      | c :: rest => execMatchGo re rest (c :: preRev)

def execMatch (re : RE) (s : Str) : Option (Str × Str × List Str) :=
  execMatchGo re s []

/-- Group access `match[k]` as the source reads it: a missing group is JS `undefined`,
which, like the empty string, is falsy — both are modelled by `[]`. -/
def groupOf (caps : List Str) (k : Nat) : Str := caps.getD k []

/-- JS `String.prototype.replace` with a non-global regex:
replace the leftmost match with `repl`. -/
def replaceFirst (re : RE) (repl : Str) (s : Str) : Str :=
  match execMatch re s with
  | some (pre, m0, _) => pre ++ repl ++ s.drop (pre.length + m0.length)
  | none => s

/-! ### Pattern combinators -/

def rChar (c : Char) : RE := .cls (· = c)

def rCharCI (c : Char) : RE := .cls (fun d => lowerChar d = c)

def rStr (s : Str) : RE := s.foldr (fun c acc => .seq (rChar c) acc) .eps

/-- Case-insensitive literal; `s` is given in lowercase. -/
def rStrCI (s : Str) : RE := s.foldr (fun c acc => .seq (rCharCI c) acc) .eps

def rSeqs (rs : List RE) : RE := rs.foldr .seq .eps

def rFail : RE := .cls (fun _ => false)

/-- Ordered alternation `(?:a|b|...)`, left alternative preferred. -/
def rAlts : List RE → RE
  | [] => rFail
  | [r] => r
  | r :: rest => .alt r (rAlts rest)

def rAltStrsCI (ws : List Str) : RE := rAlts (ws.map rStrCI)

def rStar (r : RE) : RE := .rep 0 none r

def rPlus (r : RE) : RE := .rep 1 none r

def rOpt (r : RE) : RE := .rep 0 (some 1) r

end OCR

namespace OCR

/-! ### Character classes appearing in the source's patterns

Each named class is the transcription of a bracket expression, with the
`i` flag folded in where the source pattern carries it. -/

def cSpColon (c : Char) : Bool := isJsSpace c || c = ':'

def cDotSpColon (c : Char) : Bool := c = '.' || isJsSpace c || c = ':'

def cAlphaSp (c : Char) : Bool := isAlphaC c || isJsSpace c

def cAlnumHy (c : Char) : Bool := isAlphaC c || isDigitC c || c = '-'

def cUpperDigit (c : Char) : Bool := isUpperC c || isDigitC c

def cInstChunk (c : Char) : Bool :=
  isAlphaC c || isJsSpace c || c = '&' || c = '.' || c = ','

def cDigitDot (c : Char) : Bool := isDigitC c || c = '.'

def cDigitComma (c : Char) : Bool := isDigitC c || c = ','

def cDateChar (c : Char) : Bool := isDigitC c || c = '/' || c = '-' || c = '.'

def cDateSep (c : Char) : Bool := c = '/' || c = '-' || c = '.'

def cCommaSp (c : Char) : Bool := c = ',' || isJsSpace c

def cNotRParen (c : Char) : Bool := c != ')'

def cSpWord (c : Char) : Bool := isJsSpace c || isWordC c

def rSp0 : RE := rStar (.cls isJsSpace)

def rSp1 : RE := rPlus (.cls isJsSpace)

def rSpColon0 : RE := rStar (.cls cSpColon)

def rDigits1 : RE := rPlus (.cls isDigitC)

/-! ### Word lists from the source -/

/-- Month names in the order the date patterns list them. -/
def monthAltOrder : List Str :=
  ["june", "july", "august", "september", "october", "november", "december",
   "january", "february", "march", "april", "may"].map String.toList

def reMonth : RE := rAltStrsCI monthAltOrder

/-- Calendar-ordered month names used by the `findIndex` lookups. -/
def monthNames : List Str :=
  ["january", "february", "march", "april", "may", "june",
   "july", "august", "september", "october", "november", "december"].map String.toList

/-- The 31-surname alternation (name patterns 4, the receipt-name pattern,
the form-field name pattern and the `hasValidSurname` test). -/
def surnames31 : List Str :=
  ["patil", "singh", "kumar", "sharma", "gupta", "verma", "yadav", "ahmed",
   "khan", "ali", "joshi", "mishra", "tiwari", "malik", "chauhan", "agarwal",
   "jain", "mehta", "bansal", "goel", "arora", "kapoor", "reddy", "rao",
   "naidu", "venkat", "krishna", "ram", "lakshmi", "devi", "kumari"].map String.toList

/-- The short surname alternation of studentName pattern 6. -/
def surnames10 : List Str :=
  ["patil", "singh", "kumar", "sharma", "gupta", "verma", "yadav", "ahmed",
   "khan", "ali"].map String.toList

/-- Keywords of the negative lookahead in studentName pattern 6. -/
def lookaheadWords : List Str :=
  ["institute", "college", "university", "technology", "school",
   "academy"].map String.toList

/-- The institution-word filter list (identical at its three use sites). -/
def institutionWords : List Str :=
  ["institute", "college", "university", "technology", "school", "academy",
   "vidyalankar", "engineering"].map String.toList

def reHonorific : RE :=
  rAlts [rStrCI "mr.".toList, rStrCI "ms.".toList, rStrCI "mrs.".toList]

def reParenChunk : RE :=
  rSeqs [rChar '(', rPlus (.cls cNotRParen), rChar ')']

def reOptParen : RE := rOpt reParenChunk

/-! ### Primary pattern table (`patterns` object, lines 118-181) -/

def reSN1 : RE :=
  rSeqs [rAlts [rStrCI "name".toList, rStrCI "student".toList, rStrCI "candidate".toList],
         rSpColon0, .grp (rSeqs [rPlus (.cls cAlphaSp), reOptParen])]

def reSN2 : RE :=
  rSeqs [rAlts [rStrCI "this is to certify that".toList, rStrCI "certify that".toList],
         rSp1, .grp (rPlus (.cls cAlphaSp))]

def reSN3 : RE :=
  rSeqs [reHonorific, rSp0, .grp (rSeqs [rPlus (.cls cAlphaSp), reOptParen])]

def reSN4 : RE :=
  rSeqs [rAlts [rSeqs [rStrCI "student".toList, rSp0, rStrCI "name".toList],
                rStrCI "name".toList],
         rSpColon0,
         .grp (rSeqs [.cls isAlphaC, rPlus (.cls cAlphaSp), rAltStrsCI surnames31])]

def reCapWord : RE := rSeqs [.cls isUpperC, rPlus (.cls isLowerC)]

def reSN5 : RE :=
  .grp (rSeqs [reCapWord, rSp1, reCapWord, rSp1, reCapWord,
               rStar (rSeqs [rSp1, reCapWord])])

def reSN6 : RE :=
  .seq (.nla (rSeqs [rStar (.cls isDotC), rAltStrsCI lookaheadWords]))
       (.grp (rSeqs [.cls isAlphaC, rPlus (.cls cAlphaSp), rAltStrsCI surnames10]))

def reSR1 : RE :=
  rSeqs [rAlts [rStrCI "roll".toList, rStrCI "reg".toList, rStrCI "registration".toList],
         rSpColon0, rStrCI "no".toList, rStar (.cls cDotSpColon), .grp (rPlus (.cls cAlnumHy))]

def reSR2 : RE :=
  rSeqs [rAlts [rStrCI "roll".toList, rStrCI "reg".toList, rStrCI "registration".toList],
         rSpColon0, .grp (rPlus (.cls cAlnumHy))]

def reSR3 : RE :=
  rSeqs [rStrCI "roll".toList, rSpColon0, rStrCI "no".toList,
         rStar (.cls cDotSpColon), .grp (rPlus (.cls cAlnumHy))]

/-- Shared shape pattern `([A-Z0-9]{8,12})` (roll pattern 4 and the generic
roll fallback; case-sensitive). -/
def reAlnum8to12 : RE := .grp (.rep 8 (some 12) (.cls cUpperDigit))

def reCN1 : RE :=
  rSeqs [rAlts [rStrCI "certificate".toList, rStrCI "cert".toList,
                rStrCI "degree".toList, rStrCI "receipt".toList],
         rSpColon0, rStrCI "no".toList, rStar (.cls cDotSpColon), .grp (rPlus (.cls cAlnumHy))]

def reCN2 : RE :=
  rSeqs [rStrCI "certificate".toList, rSpColon0, rStrCI "number".toList,
         rSpColon0, .grp (rPlus (.cls cAlnumHy))]

def reCN3 : RE :=
  rSeqs [rAlts [rStrCI "certificate".toList, rStrCI "cert".toList],
         rSpColon0, .grp (rPlus (.cls cAlnumHy))]

def reCN4 : RE :=
  rSeqs [rStrCI "receipt".toList, rSpColon0, rStrCI "no".toList,
         rStar (.cls cDotSpColon), .grp (rPlus (.cls cAlnumHy))]

def reCN5 : RE := .grp (.rep 6 none (.cls isDigitC))

def reInstKw : RE :=
  rAlts [rStrCI "university".toList, rStrCI "college".toList,
         rStrCI "institute".toList, rStrCI "school".toList]

def reIN1 : RE := rSeqs [reInstKw, rSpColon0, .grp (rPlus (.cls cInstChunk))]

def reIN2 : RE :=
  .grp (rSeqs [.cls isAlphaC, rPlus (.cls cInstChunk), reInstKw])

def reIN3 : RE :=
  rSeqs [rAlts [rStrCI "awarded by".toList, rStrCI "issued by".toList],
         rSpColon0, .grp (rPlus (.cls cInstChunk))]

/-- Pattern `vidyalankar[\s\w]*institute` has no capture group, so its matches are
always rejected by the `match[1]` truthiness guard. -/
def reIN4 : RE := rSeqs [rStrCI "vidyalankar".toList, rStar (.cls cSpWord), rStrCI "institute".toList]

def reIN5 : RE :=
  .grp (rSeqs [.cls isAlphaC, rPlus (.cls cAlphaSp),
               rAlts [rStrCI "technology".toList, rStrCI "engineering".toList,
                      rStrCI "college".toList, rStrCI "university".toList]])

def reCO1 : RE :=
  rSeqs [rAlts [rStrCI "course".toList, rStrCI "degree".toList, rStrCI "program".toList],
         rSpColon0, .grp (rPlus (.cls cInstChunk))]

def reCO2 : RE :=
  rSeqs [rAlts [rStrCI "bachelor".toList, rStrCI "master".toList, rStrCI "diploma".toList],
         rSpColon0, rStrCI "of".toList, rSpColon0, .grp (rPlus (.cls cInstChunk))]

def reCO3 : RE :=
  rSeqs [rAlts [rStrCI "in".toList, rStrCI "for".toList],
         rSpColon0, .grp (rPlus (.cls cInstChunk))]

/-- Capture-free course pattern, rejected by the `match[1]` guard like reIN4. -/
def reCO4 : RE :=
  rSeqs [rAlts [rStrCI "computer".toList, rStrCI "mechanical".toList,
                rStrCI "electrical".toList, rStrCI "civil".toList,
                rStrCI "electronics".toList],
         rSp0, rAlts [rStrCI "engineering".toList, rStrCI "science".toList]]

def reCO5 : RE :=
  rSeqs [rAlts [rStrCI "undergraduate".toList, rStrCI "graduate".toList],
         rSpColon0, .grp (rPlus (.cls cInstChunk))]

def reMK1 : RE :=
  rSeqs [rAlts [rStrCI "marks".toList, rStrCI "grade".toList,
                rStrCI "cgpa".toList, rStrCI "percentage".toList],
         rSpColon0, .grp (rPlus (.cls cDigitDot))]

def reMK2 : RE :=
  rSeqs [.grp (rPlus (.cls cDigitDot)), rSp0,
         rAlts [rStr "out of".toList, rChar '/', rChar '%']]

def reMK3 : RE :=
  rSeqs [rAlts [rStrCI "secured".toList, rStrCI "obtained".toList],
         rSpColon0, .grp (rPlus (.cls cDigitDot))]

def reMK4 : RE :=
  rSeqs [rStrCI "total".toList, rSpColon0, .grp (rPlus (.cls cDigitComma))]

def reMK5 : RE :=
  .grp (rSeqs [rDigits1, .cls (fun c => c = '.' || c = ','), rDigits1])

def reDI1 : RE :=
  rSeqs [rAlts [rStrCI "date".toList, rStrCI "issued".toList, rStrCI "awarded".toList],
         rSpColon0, .grp (rPlus (.cls cDateChar))]

def reDI2 : RE :=
  .grp (rSeqs [.rep 1 (some 2) (.cls isDigitC), .cls cDateSep,
               .rep 1 (some 2) (.cls isDigitC), .cls cDateSep,
               .rep 2 (some 4) (.cls isDigitC)])

def reDI3 : RE :=
  rSeqs [rStrCI "on".toList, rSpColon0, .grp (rPlus (.cls cDateChar))]

def reDI4 : RE :=
  rSeqs [reMonth, rStar (.cls cCommaSp),
         .grp (rSeqs [.rep 1 (some 2) (.cls isDigitC), rStar (.cls cCommaSp),
                      .rep 4 (some 4) (.cls isDigitC)])]

def reDI5 : RE := .grp (.rep 4 (some 4) (.cls isDigitC))

def reDI6 : RE :=
  rSeqs [reMonth, rSp1, .grp (.rep 1 (some 2) (.cls isDigitC)),
         rOpt (rChar ','), rSp1, .grp (.rep 4 (some 4) (.cls isDigitC))]

def reDI7 : RE :=
  rSeqs [.grp (.rep 1 (some 2) (.cls isDigitC)), rSp1, reMonth, rSp1,
         .grp (.rep 4 (some 4) (.cls isDigitC))]

/-- Shared pattern for "June 27, 2025"-style dates (dateIssued pattern 8,
the receipt-date fallback, and form date pattern 4). -/
def reDI8 : RE :=
  rSeqs [reMonth, rSp1, .grp (.rep 1 (some 2) (.cls isDigitC)),
         rChar ',', rSp1, .grp (.rep 4 (some 4) (.cls isDigitC))]

def reUI1 : RE :=
  rSeqs [rAlts [rStrCI "uin".toList, rStrCI "unique identification number".toList],
         rSpColon0, .grp (rPlus (.cls cAlnumHy))]

def reUI2 : RE :=
  rSeqs [rAlts [rStrCI "unique id".toList, rStrCI "id".toList],
         rSpColon0, .grp (rPlus (.cls cAlnumHy))]

def reUI3 : RE := .grp (.rep 8 none (.cls cUpperDigit))

/-! ### Fallback and form-field patterns (lines 240-326) -/

def reInstFallback : RE := .grp (rSeqs [rPlus (.cls cAlphaSp), reInstKw])

def reReceiptName : RE :=
  rSeqs [reHonorific, rSp0,
         .grp (rSeqs [.cls isAlphaC, rPlus (.cls cAlphaSp), rAltStrsCI surnames31])]

def reFR1 : RE :=
  rSeqs [rStrCI "student".toList, rSp0, rStrCI "roll".toList, rSp0,
         rStrCI "no".toList, rSpColon0, .grp (rPlus (.cls cAlnumHy))]

def reFR2 : RE :=
  rSeqs [rStrCI "roll".toList, rSp0, rStrCI "no".toList, rSpColon0,
         .grp (rPlus (.cls cAlnumHy))]

def reFR3 : RE :=
  rSeqs [rStrCI "roll".toList, rSp0, rStrCI "number".toList, rSpColon0,
         .grp (rPlus (.cls cAlnumHy))]

def reFN1 : RE :=
  rSeqs [rStrCI "student".toList, rSp0, rStrCI "name".toList, rSpColon0,
         .grp (rSeqs [rPlus (.cls cAlphaSp), reOptParen])]

def reFN2 : RE :=
  rSeqs [rStrCI "name".toList, rSpColon0,
         .grp (rSeqs [rPlus (.cls cAlphaSp), reOptParen])]

def reFI1 : RE :=
  rSeqs [rStrCI "institution".toList, rSpColon0, .grp (rPlus (.cls cInstChunk))]

def reFI2 : RE :=
  rSeqs [rStrCI "college".toList, rSpColon0, .grp (rPlus (.cls cInstChunk))]

def reFI3 : RE :=
  rSeqs [rStrCI "university".toList, rSpColon0, .grp (rPlus (.cls cInstChunk))]

/-- Capture-free institution form pattern, rejected by the `match[1]` guard. -/
def reFI4 : RE :=
  rSeqs [rStrCI "vidyalankar".toList, rStar (.cls cSpWord), rStrCI "institute".toList,
         rStar (.cls cSpWord), rStrCI "technology".toList]

def reFD1 : RE :=
  rSeqs [rStrCI "issue".toList, rSp0, rStrCI "date".toList, rSpColon0,
         .grp (rPlus (.cls cDateChar))]

def reFD2 : RE :=
  rSeqs [rStrCI "date".toList, rSpColon0, .grp (rPlus (.cls cDateChar))]

def reFC1 : RE :=
  rSeqs [rStrCI "receipt".toList, rSp0, rStrCI "no".toList, rSpColon0,
         .grp rDigits1]

def reFC2 : RE :=
  rSeqs [rStrCI "certificate".toList, rSp0, rStrCI "no".toList, rSpColon0,
         .grp (rPlus (.cls cAlnumHy))]

def reFC3 : RE :=
  rSeqs [rStrCI "certificate".toList, rSp0, rStrCI "number".toList, rSpColon0,
         .grp (rPlus (.cls cAlnumHy))]

/-! ### Cleanup helpers (lines 194-225, 260-269) -/

/-- The trailing-parenthetical strip `\([^)]*\)$`. -/
def reTrailParen : RE :=
  rSeqs [rChar '(', rStar (.cls cNotRParen), rChar ')', .eos]

/-- The receipt-name variant `\s*\([^)]*\)$`. -/
def reSpTrailParen : RE :=
  rSeqs [rSp0, rChar '(', rStar (.cls cNotRParen), rChar ')', .eos]

/-- The anchored honorific strip `^(mr\.|ms\.|mrs\.)\s*`. -/
def stripHonorificTitle (s : Str) : Str :=
  match execAt (rSeqs [.grp reHonorific, rSp0]) s with
  | some (m0, _) => s.drop m0.length
  | none => s

/-- Lines 199-202: `value.split(' ').filter(no institution word).join(' ').trim()`. -/
def filterInstWords (v : Str) : Str :=
  trimStr (List.intercalate [' ']
    ((splitOnChar ' ' v).filter
      (fun w => !(institutionWords.any (fun inst => containsSub (lowerStr inst) (lowerStr w))))))

def cleanupStudentName (v : Str) : Str :=
  let v1 := trimStr (replaceFirst reTrailParen [] v)
  let v2 := stripHonorificTitle v1
  filterInstWords v2

def cleanupDateIssued (v : Str) : Str :=
  if containsSub [','] v then
    let parts := splitOnRuns cCommaSp (lowerStr v)
    if 3 ≤ parts.length then
      match monthNames.findIdx? (fun m => containsSub m (parts.getD 0 [])) with
      | some monthIndex =>
          (parts.getD 1 []).filter isDigitC ++ '/' ::
          (padStart 2 '0' (natToDec (monthIndex + 1)) ++ '/' ::
           (parts.getD 2 []).filter isDigitC)
      | none => v
    else v
  else v.filter cDateChar

def cleanupMarks (v : Str) : Str := v.filter cDigitDot

/-- Line 224: `value.replace(/[^A-Z0-9\-]/g, '')` — note this one is case-sensitive. -/
def cleanupRollCert (v : Str) : Str :=
  v.filter (fun c => isUpperC c || isDigitC c || c = '-')

end OCR
namespace OCR

/-! ### Data model (`ParsedData`, lines 10-19) -/

structure ParsedData where
  studentName : Option Str := none
  studentRoll : Option Str := none
  certificateNumber : Option Str := none
  institutionName : Option Str := none
  courseName : Option Str := none
  marks : Option Str := none
  dateIssued : Option Str := none
  uin : Option Str := none
  deriving DecidableEq, Repr

inductive Field where
  | studentName | studentRoll | certificateNumber | institutionName
  | courseName | marks | dateIssued | uin
  deriving DecidableEq, Repr

def getF (d : ParsedData) : Field → Option Str
  | .studentName => d.studentName
  | .studentRoll => d.studentRoll
  | .certificateNumber => d.certificateNumber
  | .institutionName => d.institutionName
  | .courseName => d.courseName
  | .marks => d.marks
  | .dateIssued => d.dateIssued
  | .uin => d.uin

/-- JS truthiness of `extracted[field]`: absent (`undefined`) and the empty
string are both falsy. -/
def unsetF : Option Str → Bool
  | none => true
  | some v => v.isEmpty

/-- Per-field post-match cleanup (lines 193-225).  Fields without a cleanup
branch keep the trimmed capture unchanged. -/
def cleanupValue : Field → Str → Str
  | .studentName, v => cleanupStudentName v
  | .dateIssued, v => cleanupDateIssued v
  | .marks, v => cleanupMarks v
  | .studentRoll, v => cleanupRollCert v
  | .certificateNumber, v => cleanupRollCert v
  | _, v => v

/-- The ordered per-field pattern lists (the `patterns` object). -/
def fieldPatterns : Field → List RE
  | .studentName => [reSN1, reSN2, reSN3, reSN4, reSN5, reSN6]
  | .studentRoll => [reSR1, reSR2, reSR3, reAlnum8to12]
  | .certificateNumber => [reCN1, reCN2, reCN3, reCN4, reCN5]
  | .institutionName => [reIN1, reIN2, reIN3, reIN4, reIN5]
  | .courseName => [reCO1, reCO2, reCO3, reCO4, reCO5]
  | .marks => [reMK1, reMK2, reMK3, reMK4, reMK5]
  | .dateIssued => [reDI1, reDI2, reDI3, reDI4, reDI5, reDI6, reDI7, reDI8]
  | .uin => [reUI1, reUI2, reUI3]

/-! ### Primary extractor (lines 183-235)

The source's triple loop (fields, then lines, then patterns) accepts, per
field, the first `(line, pattern)` pair — lines outermost — whose
`match[1]` is truthy, whose trimmed capture is longer than 2 characters,
and whose cleaned-up value is non-empty.  The per-field searches neither
read nor write any other field, so the loop over fields is rendered as
one record construction. -/

def acceptPattern (f : Field) (line : Str) (re : RE) : Option Str :=
  match execMatch re line with
  | none => none
  | some (_, _, caps) =>
    let m1 := groupOf caps 0
    if m1.isEmpty then none
    else if 2 < (trimStr m1).length then
      let value := cleanupValue f (trimStr m1)
      if 0 < value.length then some value else none
    else none

def extractField (f : Field) (lines : List Str) : Option Str :=
  lines.findSome? (fun line => (fieldPatterns f).findSome? (acceptPattern f line))

def extractPrimary (lines : List Str) : ParsedData where
  studentName := extractField .studentName lines
  studentRoll := extractField .studentRoll lines
  certificateNumber := extractField .certificateNumber lines
  institutionName := extractField .institutionName lines
  courseName := extractField .courseName lines
  marks := extractField .marks lines
  dateIssued := extractField .dateIssued lines
  uin := extractField .uin lines

/-! ### Fallback passes (lines 237-288) -/

/-- Generic roll/certificate fallback (lines 238-244). -/
def rollFallback (cleanedText : Str) (d : ParsedData) : ParsedData :=
  if unsetF d.studentRoll && unsetF d.certificateNumber then
    match execMatch reAlnum8to12 cleanedText with
    | some (_, _, caps) => { d with studentRoll := some (groupOf caps 0) }
    | none => d
  else d

/-- Generic institution-keyword fallback (lines 246-252). -/
def instFallback (cleanedText : Str) (d : ParsedData) : ParsedData :=
  if unsetF d.institutionName then
    match execMatch reInstFallback cleanedText with
    | some (_, _, caps) => { d with institutionName := some (trimStr (groupOf caps 0)) }
    | none => d
  else d

/-- Guard `hasValidSurname` (line 345): the case-insensitive surname regex test. -/
def hasValidSurname (v : Str) : Bool :=
  surnames31.any (fun s => containsSub s (lowerStr v))

/-- Generic per-field form pattern attempt (lines 330-333, 350-353):
first pattern whose trimmed `match[1]` is truthy and longer than 2. -/
def formTryOther (patterns : List RE) (text : Str) : Option Str :=
  patterns.findSome? (fun re =>
    match execMatch re text with
    | none => none
    | some (_, _, caps) =>
      let m1 := groupOf caps 0
      if m1.isEmpty then none
      else if 2 < (trimStr m1).length then some (trimStr m1) else none)

/-- Form-field studentName attempt (lines 336-349): the institution-word
filter plus the surname и length-above-5 acceptance guard; a failed guard
falls through to the next pattern. -/
def formTryName (text : Str) : Option Str :=
  [reFN1, reFN2, reReceiptName].findSome? (fun re =>
    match execMatch re text with
    | none => none
    | some (_, _, caps) =>
      let m1 := groupOf caps 0
      if m1.isEmpty then none
      else if 2 < (trimStr m1).length then
        let value := filterInstWords (trimStr m1)
        if hasValidSurname value && 5 < value.length then some value else none
      else none)

def formStepRoll (text : Str) (d : ParsedData) : ParsedData :=
  if unsetF d.studentRoll then
    match formTryOther [reFR1, reFR2, reFR3] text with
    | some v => { d with studentRoll := some v }
    | none => d
  else d

def formStepName (text : Str) (d : ParsedData) : ParsedData :=
  if unsetF d.studentName then
    match formTryName text with
    | some v => { d with studentName := some v }
    | none => d
  else d

def formStepInst (text : Str) (d : ParsedData) : ParsedData :=
  if unsetF d.institutionName then
    match formTryOther [reFI1, reFI2, reFI3, reFI4] text with
    | some v => { d with institutionName := some v }
    | none => d
  else d

def formStepDate (text : Str) (d : ParsedData) : ParsedData :=
  if unsetF d.dateIssued then
    match formTryOther [reFD1, reFD2, reDI4, reDI8, reDI7] text with
    | some v => { d with dateIssued := some v }
    | none => d
  else d

def formStepCert (text : Str) (d : ParsedData) : ParsedData :=
  if unsetF d.certificateNumber then
    match formTryOther [reFC1, reFC2, reFC3] text with
    | some v => { d with certificateNumber := some v }
    | none => d
  else d

/-- Pass `extractFromFormFields` (lines 293-358): the `formPatterns` object is
iterated in insertion order — studentRoll, studentName, institutionName,
dateIssued, certificateNumber. -/
def extractFromFormFields (text : Str) (d : ParsedData) : ParsedData :=
  formStepCert text (formStepDate text (formStepInst text
    (formStepName text (formStepRoll text d))))

/-- Receipt-format name fallback (lines 257-271). -/
def receiptNamePass (cleanedText : Str) (d : ParsedData) : ParsedData :=
  if unsetF d.studentName then
    match execMatch reReceiptName cleanedText with
    | some (_, _, caps) =>
      let name := trimStr (replaceFirst reSpTrailParen [] (trimStr (groupOf caps 0)))
      { d with studentName := some (filterInstWords name) }
    | none => d
  else d

/-- Receipt-format date fallback (lines 273-288). -/
def receiptDatePass (cleanedText : Str) (d : ParsedData) : ParsedData :=
  if unsetF d.dateIssued then
    match execMatch reDI8 cleanedText with
    | some (_, m0, caps) =>
      match monthNames.findIdx? (fun m => containsSub m (lowerStr m0)) with
      | some monthIndex =>
        let assembled :=
          groupOf caps 0 ++ ['/'] ++ padStart 2 '0' (natToDec (monthIndex + 1)) ++
            ['/'] ++ groupOf caps 1
        { d with dateIssued := some assembled }
      | none => d
    | none => d
  else d

/-! ### Normalisation and the whole parser (lines 90-97, 290) -/

/-- Characters kept by the cleaning regex `[^\w\s\-.,\/:()]` (the class is
negated in the source; this is the kept set). -/
def isAllowedKeep (c : Char) : Bool :=
  isWordC c || isJsSpace c ||
  c = '-' || c = '.' || c = ',' || c = '/' || c = ':' || c = '(' || c = ')'

/-- Lines 92-95: allow-list replacement, whitespace collapse, trim. -/
def cleanTextOf (text : Str) : Str :=
  trimStr (collapseWS (text.map (fun c => if isAllowedKeep c then c else ' ')))

/-- Line 97: split on line breaks, trim each piece, discard empties. -/
def linesOf (cleanedText : Str) : List Str :=
  ((splitOnChar '\n' cleanedText).map trimStr).filter (fun l => 0 < l.length)

structure NormalizedDocument where
  cleanedText : Str
  lines : List Str
  deriving DecidableEq, Repr

def normalize (text : Str) : NormalizedDocument :=
  { cleanedText := cleanTextOf text, lines := linesOf (cleanTextOf text) }

/-- Parser `parseCertificateText` (lines 90-291): primary extraction, then the
five gap-filling passes in source order. -/
def parseCertificateText (text : Str) : ParsedData :=
  let cleanedText := cleanTextOf text
  let lines := linesOf cleanedText
  let extracted := extractPrimary lines
  let e1 := rollFallback cleanedText extracted
  let e2 := instFallback cleanedText e1
  let e3 := extractFromFormFields cleanedText e2
  let e4 := receiptNamePass cleanedText e3
  let e5 := receiptDatePass cleanedText e4
  e5

/-! ### Validator (lines 360-371) -/

structure ValidationResult where
  isValid : Bool
  errors : List Str
  deriving DecidableEq, Repr

def validateExtractedData (d : ParsedData) : ValidationResult :=
  let errors :=
    (if unsetF d.studentName then ["Student name not found".toList] else []) ++
    (if unsetF d.studentRoll && unsetF d.certificateNumber then
      ["Roll number or certificate number not found".toList] else []) ++
    (if unsetF d.institutionName then ["Institution name not found".toList] else [])
  { isValid := errors.length = 0, errors := errors }

/-! ### Text acquisition (lines 22-79)

`extractText` is modelled with the external OCR engine as a parameter:
`some run` means `Tesseract.recognize` resolves with `run`, `none` means
the engine (or the file read) throws.  The second component of the result
records whether the OCR engine was invoked.  Everything thrown inside the
`try` block — including the unsupported-file-type error — is caught at
line 62 and rethrown as the generic extraction-failure message. -/

structure OCRRun where
  text : Str
  confidence : Nat

structure JSFile where
  type : Str

def validTypes : List Str :=
  ["image/jpeg", "image/jpg", "image/png", "image/gif", "image/bmp",
   "image/webp", "image/tiff"].map String.toList

def isValidFileType (file : JSFile) : Bool :=
  validTypes.contains (lowerStr file.type)

def unsupportedTypeMsg : Str :=
  "Unsupported file type. Please use image files (JPG, PNG, etc.)".toList

def extractionFailureMsg : Str :=
  "Failed to extract text from document. Please ensure the file is a valid image.".toList

/-- Stands in for whatever message the OCR engine's own rejection carries;
it is always replaced by the catch-all before reaching the caller. -/
def engineFailureMsg : Str := "ocr engine failure".toList

structure ExtractedData where
  rawText : Str
  confidence : Nat
  parsedData : ParsedData
  deriving DecidableEq, Repr

/-- The body of the `try` block: type check, OCR call, parse. -/
def extractTextInner (ocr : Option OCRRun) (file : JSFile) :
    Except Str ExtractedData × Bool :=
  if !isValidFileType file then (.error unsupportedTypeMsg, false)
  else
    match ocr with
    | none => (.error engineFailureMsg, true)
    | some run =>
      (.ok { rawText := run.text, confidence := run.confidence,
             parsedData := parseCertificateText run.text }, true)

/-- Function `extractText` with the catch-all of lines 62-65 applied. -/
def extractText (ocr : Option OCRRun) (file : JSFile) :
    Except Str ExtractedData × Bool :=
  match extractTextInner ocr file with
  | (.ok v, called) => (.ok v, called)
  | (.error _, called) => (.error extractionFailureMsg, called)

end OCR
namespace OCR

/-! ### Comparison definitions written from the specification's words

These are not transcriptions of the source; each follows a claim's text so
that the claim can be compared against the code's behaviour. -/

/-- The fallback passes in the order the code runs them (lines 237-288):
generic roll/certificate, generic institution, form-field labels,
receipt-format name, receipt-format date. -/
def fallbackPasses : List (Str → ParsedData → ParsedData) :=
  [rollFallback, instFallback, extractFromFormFields, receiptNamePass, receiptDatePass]

def runFallbackPasses (text : Str) : ParsedData :=
  let cleanedText := cleanTextOf text
  fallbackPasses.foldl (fun d p => p cleanedText d) (extractPrimary (linesOf cleanedText))

/-- The parser as the order claim describes it: the two receipt-format
passes third and fourth, the form-field pass last. -/
def parseCertificateTextClaimOrder (text : Str) : ParsedData :=
  let cleanedText := cleanTextOf text
  let lines := linesOf cleanedText
  let extracted := extractPrimary lines
  let e1 := rollFallback cleanedText extracted
  let e2 := instFallback cleanedText e1
  let e3 := receiptNamePass cleanedText e2
  let e4 := receiptDatePass cleanedText e3
  let e5 := extractFromFormFields cleanedText e4
  e5

/-- The normalization allow-list exactly as the claim states it,
`[A-Za-z0-9\s\-.,/:()]` — no underscore. -/
def isAllowedClaim (c : Char) : Bool :=
  isAlphaC c || isDigitC c || isJsSpace c ||
  c = '-' || c = '.' || c = ',' || c = '/' || c = ':' || c = '(' || c = ')'

/-- The claim's normalization algorithm with its stated allow-list. -/
def cleanTextClaim (text : Str) : Str :=
  trimStr (collapseWS (text.map (fun c => if isAllowedClaim c then c else ' ')))

/-- The amended allow-list: the claim's list plus the underscore that the
source's `\w` admits. -/
def isAllowedAmended (c : Char) : Bool :=
  isAlphaC c || isDigitC c || c = '_' || isJsSpace c ||
  c = '-' || c = '.' || c = ',' || c = '/' || c = ':' || c = '(' || c = ')'

/-- The amended normalization, written from the amended claim text:
replace characters outside the (underscore-including) allow-list with a
space, collapse whitespace, trim, split into trimmed non-empty lines. -/
def normalizeAmended (text : Str) : NormalizedDocument :=
  let cleaned := trimStr (collapseWS (text.map (fun c => if isAllowedAmended c then c else ' ')))
  { cleanedText := cleaned,
    lines := ((splitOnChar '\n' cleaned).map trimStr).filter (fun l => 0 < l.length) }

end OCR
namespace OCR

/-! ### Structural facts about the normalisation pipeline -/

/-- Two-step list induction matching the recursion of `collapseWS`. -/
theorem twoStepInduction {P : Str → Prop} (h0 : P []) (h1 : ∀ c, P [c])
    (h2 : ∀ a b rest, P (b :: rest) → P (a :: b :: rest)) : ∀ l, P l
  | [] => h0
  | [c] => h1 c
  | a :: b :: rest => h2 a b rest (twoStepInduction h0 h1 h2 (b :: rest))

/-- Output shape of the whitespace collapse: no two adjacent whitespace
characters, and every whitespace character is a plain space. -/
def SingleSpaced (l : Str) : Prop :=
  l.Chain' (fun a b => ¬(isJsSpace a = true ∧ isJsSpace b = true)) ∧
  ∀ c ∈ l, isJsSpace c = true → c = ' '

theorem collapseWS_head? (l : Str) :
    (collapseWS l).head? = l.head?.map (fun c => if isJsSpace c then ' ' else c) := by
  induction l using twoStepInduction with
  | h0 => rfl
  | h1 c => by_cases h : isJsSpace c <;> simp [collapseWS, h]
  | h2 a b rest ih =>
    by_cases ha : isJsSpace a <;> by_cases hb : isJsSpace b <;>
      simp [collapseWS, ha, hb, ih]

theorem collapseWS_cons₂_sp {a b : Char} {rest : Str}
    (ha : isJsSpace a = true) (hb : isJsSpace b = true) :
    collapseWS (a :: b :: rest) = collapseWS (b :: rest) := by
  simp [collapseWS, ha, hb]

theorem collapseWS_cons₂ {a b : Char} {rest : Str}
    (h : ¬(isJsSpace a = true ∧ isJsSpace b = true)) :
    collapseWS (a :: b :: rest) =
      (if isJsSpace a then ' ' else a) :: collapseWS (b :: rest) := by
  by_cases ha : isJsSpace a <;> by_cases hb : isJsSpace b <;>
    simp [collapseWS, ha, hb] at h ⊢

theorem collapseWS_subset (l : Str) : ∀ c ∈ collapseWS l, c = ' ' ∨ c ∈ l := by
  induction l using twoStepInduction with
  | h0 => simp [collapseWS]
  | h1 d =>
    intro c hc
    by_cases h : isJsSpace d <;> simp [collapseWS, h] at hc <;> simp [hc]
  | h2 a b rest ih =>
    intro c hc
    by_cases hab : isJsSpace a = true ∧ isJsSpace b = true
    · rw [collapseWS_cons₂_sp hab.1 hab.2] at hc
      rcases ih c hc with h | h
      · exact Or.inl h
      · simp [h]
    · rw [collapseWS_cons₂ hab] at hc
      rcases List.mem_cons.mp hc with h | h
      · by_cases ha : isJsSpace a
        · simp [ha] at h; simp [h]
        · simp [ha] at h; simp [h]
      · rcases ih c h with h' | h'
        · exact Or.inl h'
        · simp [h']

theorem collapseWS_space_eq (l : Str) :
    ∀ c ∈ collapseWS l, isJsSpace c = true → c = ' ' := by
  induction l using twoStepInduction with
  | h0 => simp [collapseWS]
  | h1 d =>
    intro c hc hsp
    by_cases h : isJsSpace d <;> simp [collapseWS, h] at hc
    · exact hc
    · subst hc; exact absurd hsp (by simp [h])
  | h2 a b rest ih =>
    intro c hc hsp
    by_cases hab : isJsSpace a = true ∧ isJsSpace b = true
    · rw [collapseWS_cons₂_sp hab.1 hab.2] at hc
      exact ih c hc hsp
    · rw [collapseWS_cons₂ hab] at hc
      rcases List.mem_cons.mp hc with h | h
      · by_cases ha : isJsSpace a
        · simpa [ha] using h
        · rw [if_neg ha] at h; subst h; exact absurd hsp (by simp [ha])
      · exact ih c h hsp

theorem collapseWS_chain' (l : Str) :
    (collapseWS l).Chain' (fun a b => ¬(isJsSpace a = true ∧ isJsSpace b = true)) := by
  induction l using twoStepInduction with
  | h0 => simp [collapseWS]
  | h1 c => by_cases h : isJsSpace c <;> simp [collapseWS, h]
  | h2 a b rest ih =>
    by_cases hab : isJsSpace a = true ∧ isJsSpace b = true
    · rw [collapseWS_cons₂_sp hab.1 hab.2]
      exact ih
    · rw [collapseWS_cons₂ hab, List.chain'_cons']
      refine ⟨?_, ih⟩
      intro y hy
      rw [collapseWS_head? (b :: rest)] at hy
      have hy' : (if isJsSpace b = true then ' ' else b) = y := by simpa using hy
      subst hy'
      intro hcon
      by_cases hsb : isJsSpace b
      · have ha : ¬isJsSpace a = true := fun hx => hab ⟨hx, hsb⟩
        rw [if_neg ha] at hcon
        exact ha hcon.1
      · rw [if_neg hsb] at hcon
        exact hsb hcon.2

theorem collapseWS_singleSpaced (l : Str) : SingleSpaced (collapseWS l) :=
  ⟨collapseWS_chain' l, collapseWS_space_eq l⟩

theorem collapseWS_eq_self : ∀ {l : Str}, SingleSpaced l → collapseWS l = l := by
  intro l
  induction l using twoStepInduction with
  | h0 => intro _; rfl
  | h1 c =>
    intro h
    by_cases hc : isJsSpace c
    · have hce := h.2 c (by simp) hc
      simp [collapseWS, hc, hce]
    · simp [collapseWS, hc]
  | h2 a b rest ih =>
    intro h
    have hnab : ¬(isJsSpace a = true ∧ isJsSpace b = true) :=
      (List.chain'_cons.mp h.1).1
    have htail : SingleSpaced (b :: rest) :=
      ⟨(List.chain'_cons.mp h.1).2, fun c hc => h.2 c (by simp [hc])⟩
    have hhead : (if isJsSpace a then ' ' else a) = a := by
      by_cases h1 : isJsSpace a
      · rw [if_pos h1, h.2 a (by simp) h1]
      · rw [if_neg h1]
    rw [collapseWS_cons₂ hnab, hhead, ih htail]

theorem singleSpaced_suffix {l l' : Str} (h : SingleSpaced l) (hs : l' <:+ l) :
    SingleSpaced l' :=
  ⟨h.1.suffix hs, fun c hc hsp => h.2 c (hs.subset hc) hsp⟩

theorem singleSpaced_reverse {l : Str} (h : SingleSpaced l) :
    SingleSpaced l.reverse := by
  refine ⟨?_, fun c hc hsp => h.2 c (List.mem_reverse.mp hc) hsp⟩
  rw [List.chain'_reverse]
  exact h.1.imp (fun {a b} hab => fun hc => hab ⟨hc.2, hc.1⟩)

theorem singleSpaced_trimStr {l : Str} (h : SingleSpaced l) :
    SingleSpaced (trimStr l) :=
  singleSpaced_reverse (singleSpaced_suffix
    (singleSpaced_reverse (singleSpaced_suffix h (List.dropWhile_suffix _)))
    (List.dropWhile_suffix _))

theorem dropWhile_idem (p : Char → Bool) (l : Str) :
    (l.dropWhile p).dropWhile p = l.dropWhile p := by
  induction l with
  | nil => rfl
  | cons c rest ih => by_cases h : p c <;> simp [List.dropWhile_cons, h, ih]

theorem dropWhile_head_not (p : Char → Bool) (l : Str) :
    ∀ c, (l.dropWhile p).head? = some c → p c = false := by
  induction l with
  | nil => intro c h; simp at h
  | cons d rest ih =>
    intro c h
    by_cases hd : p d
    · rw [List.dropWhile_cons, if_pos hd] at h
      exact ih c h
    · rw [List.dropWhile_cons, if_neg hd] at h
      simp at h
      rw [← h]
      simp [hd]

theorem dropWhile_eq_self_of_head (p : Char → Bool) (l : Str)
    (h : ∀ c, l.head? = some c → p c = false) : l.dropWhile p = l := by
  cases l with
  | nil => rfl
  | cons c rest =>
    rw [List.dropWhile_cons, if_neg]
    simp [h c rfl]

theorem trimStr_front_of_dropWhile (l : Str) :
    trimStr l <+: l.dropWhile isJsSpace := by
  obtain ⟨t, ht⟩ :
      ((l.dropWhile isJsSpace).reverse.dropWhile isJsSpace) <:+
        (l.dropWhile isJsSpace).reverse := List.dropWhile_suffix _
  refine ⟨t.reverse, ?_⟩
  unfold trimStr
  rw [← List.reverse_append, ht, List.reverse_reverse]

theorem trim_head_not_space (l : Str) :
    ∀ c, (trimStr l).head? = some c → isJsSpace c = false := by
  intro c h
  obtain ⟨t, ht⟩ := trimStr_front_of_dropWhile l
  have hh : (l.dropWhile isJsSpace).head? = some c := by
    cases htrim : trimStr l with
    | nil => rw [htrim] at h; simp at h
    | cons d rest =>
      rw [htrim] at h ht
      simp at h
      rw [← ht, h]
      rfl
  exact dropWhile_head_not _ _ c hh

theorem trimStr_idem (l : Str) : trimStr (trimStr l) = trimStr l := by
  have hA : (trimStr l).dropWhile isJsSpace = trimStr l :=
    dropWhile_eq_self_of_head _ _ (fun c h => trim_head_not_space l c h)
  show ((((trimStr l).dropWhile isJsSpace).reverse).dropWhile isJsSpace).reverse = trimStr l
  rw [hA]
  have hrev : (trimStr l).reverse = ((l.dropWhile isJsSpace).reverse).dropWhile isJsSpace := by
    unfold trimStr
    rw [List.reverse_reverse]
  rw [hrev, dropWhile_idem, ← hrev, List.reverse_reverse]

theorem trim_subset (l : Str) : ∀ c ∈ trimStr l, c ∈ l := by
  intro c hc
  unfold trimStr at hc
  rw [List.mem_reverse] at hc
  have h1 := (List.dropWhile_suffix (l := (l.dropWhile isJsSpace).reverse) isJsSpace).subset hc
  rw [List.mem_reverse] at h1
  exact (List.dropWhile_suffix isJsSpace).subset h1

theorem map_allow_eq_self {x : Str} (h : ∀ c ∈ x, isAllowedKeep c = true) :
    (x.map (fun c => if isAllowedKeep c then c else ' ')) = x := by
  induction x with
  | nil => rfl
  | cons c rest ih =>
    have hc := h c (by simp)
    have ih' := ih (fun d hd => h d (by simp [hd]))
    simp [hc, ih']

theorem cleanTextOf_allowed (x : Str) : ∀ c ∈ cleanTextOf x, isAllowedKeep c = true := by
  intro c hc
  unfold cleanTextOf at hc
  have h1 : c ∈ collapseWS (x.map fun c => if isAllowedKeep c then c else ' ') :=
    trim_subset _ c hc
  rcases collapseWS_subset _ c h1 with h2 | h2
  · rw [h2]; decide
  · rw [List.mem_map] at h2
    obtain ⟨d, _, hdc⟩ := h2
    by_cases hall : isAllowedKeep d
    · rw [← hdc, if_pos hall]; exact hall
    · rw [← hdc, if_neg hall]; decide

theorem cleanTextOf_singleSpaced (x : Str) : SingleSpaced (cleanTextOf x) :=
  singleSpaced_trimStr (collapseWS_singleSpaced _)

theorem cleanTextOf_idem (x : Str) : cleanTextOf (cleanTextOf x) = cleanTextOf x := by
  have h1 : (cleanTextOf x).map (fun c => if isAllowedKeep c then c else ' ') = cleanTextOf x :=
    map_allow_eq_self (cleanTextOf_allowed x)
  show trimStr (collapseWS ((cleanTextOf x).map fun c => if isAllowedKeep c then c else ' ')) =
    cleanTextOf x
  rw [h1, collapseWS_eq_self (cleanTextOf_singleSpaced x)]
  show trimStr (trimStr (collapseWS (x.map fun c => if isAllowedKeep c then c else ' '))) = _
  exact trimStr_idem _

theorem splitOnChar_of_not_mem {sep : Char} : ∀ {l : Str}, sep ∉ l →
    splitOnChar sep l = [l] := by
  intro l
  induction l with
  | nil => intro _; rfl
  | cons c rest ih =>
    intro h
    simp at h
    rw [splitOnChar, if_neg (fun hc => h.1 hc.symm), ih h.2]

theorem newline_not_mem_cleanTextOf (x : Str) : '\n' ∉ cleanTextOf x := by
  intro hmem
  have h := (cleanTextOf_singleSpaced x).2 '\n' hmem (by decide)
  exact absurd h (by decide)

theorem linesOf_cleanTextOf (x : Str) :
    linesOf (cleanTextOf x) =
      if (cleanTextOf x).isEmpty then [] else [cleanTextOf x] := by
  unfold linesOf
  rw [splitOnChar_of_not_mem (newline_not_mem_cleanTextOf x)]
  have htr : trimStr (cleanTextOf x) = cleanTextOf x := by
    show trimStr (trimStr (collapseWS (x.map fun c => if isAllowedKeep c then c else ' '))) = _
    exact trimStr_idem _
  rw [List.map_cons, List.map_nil, htr]
  by_cases h : cleanTextOf x = []
  · simp [h]
  · have : 0 < (cleanTextOf x).length := List.length_pos.mpr h
    simp [List.isEmpty_iff, h, this]

end OCR
namespace OCR

/-! ### Preservation facts about the fallback passes -/

theorem unsetF_some_of_ne (v : Str) (hv : v ≠ []) : unsetF (some v) = false := by
  cases v with
  | nil => exact absurd rfl hv
  | cons a t => rfl

theorem rollFallback_preserves (ct : Str) (d : ParsedData) (f : Field) (v : Str)
    (h : getF d f = some v) (hv : v ≠ []) :
    getF (rollFallback ct d) f = some v := by
  cases f <;> simp only [getF] at h ⊢ <;> unfold rollFallback
  case studentRoll => rw [h, unsetF_some_of_ne v hv]; simp [h]
  all_goals
    split
    · split <;> simp [h]
    · exact h

theorem instFallback_preserves (ct : Str) (d : ParsedData) (f : Field) (v : Str)
    (h : getF d f = some v) (hv : v ≠ []) :
    getF (instFallback ct d) f = some v := by
  cases f <;> simp only [getF] at h ⊢ <;> unfold instFallback
  case institutionName => rw [h, unsetF_some_of_ne v hv]; simp [h]
  all_goals
    split
    · split <;> simp [h]
    · exact h

theorem formStepRoll_preserves (ct : Str) (d : ParsedData) (f : Field) (v : Str)
    (h : getF d f = some v) (hv : v ≠ []) :
    getF (formStepRoll ct d) f = some v := by
  cases f <;> simp only [getF] at h ⊢ <;> unfold formStepRoll
  case studentRoll => rw [h, unsetF_some_of_ne v hv]; simp [h]
  all_goals
    split
    · split <;> simp [h]
    · exact h

theorem formStepName_preserves (ct : Str) (d : ParsedData) (f : Field) (v : Str)
    (h : getF d f = some v) (hv : v ≠ []) :
    getF (formStepName ct d) f = some v := by
  cases f <;> simp only [getF] at h ⊢ <;> unfold formStepName
  case studentName => rw [h, unsetF_some_of_ne v hv]; simp [h]
  all_goals
    split
    · split <;> simp [h]
    · exact h

theorem formStepInst_preserves (ct : Str) (d : ParsedData) (f : Field) (v : Str)
    (h : getF d f = some v) (hv : v ≠ []) :
    getF (formStepInst ct d) f = some v := by
  cases f <;> simp only [getF] at h ⊢ <;> unfold formStepInst
  case institutionName => rw [h, unsetF_some_of_ne v hv]; simp [h]
  all_goals
    split
    · split <;> simp [h]
    · exact h

theorem formStepDate_preserves (ct : Str) (d : ParsedData) (f : Field) (v : Str)
    (h : getF d f = some v) (hv : v ≠ []) :
    getF (formStepDate ct d) f = some v := by
  cases f <;> simp only [getF] at h ⊢ <;> unfold formStepDate
  case dateIssued => rw [h, unsetF_some_of_ne v hv]; simp [h]
  all_goals
    split
    · split <;> simp [h]
    · exact h

theorem formStepCert_preserves (ct : Str) (d : ParsedData) (f : Field) (v : Str)
    (h : getF d f = some v) (hv : v ≠ []) :
    getF (formStepCert ct d) f = some v := by
  cases f <;> simp only [getF] at h ⊢ <;> unfold formStepCert
  case certificateNumber => rw [h, unsetF_some_of_ne v hv]; simp [h]
  all_goals
    split
    · split <;> simp [h]
    · exact h

theorem extractFromFormFields_preserves (ct : Str) (d : ParsedData) (f : Field) (v : Str)
    (h : getF d f = some v) (hv : v ≠ []) :
    getF (extractFromFormFields ct d) f = some v := by
  unfold extractFromFormFields
  exact formStepCert_preserves _ _ _ _
    (formStepDate_preserves _ _ _ _
      (formStepInst_preserves _ _ _ _
        (formStepName_preserves _ _ _ _
          (formStepRoll_preserves _ _ _ _ h hv) hv) hv) hv) hv

theorem receiptNamePass_preserves (ct : Str) (d : ParsedData) (f : Field) (v : Str)
    (h : getF d f = some v) (hv : v ≠ []) :
    getF (receiptNamePass ct d) f = some v := by
  cases f <;> simp only [getF] at h ⊢ <;> unfold receiptNamePass
  case studentName => rw [h, unsetF_some_of_ne v hv]; simp [h]
  all_goals
    split
    · split <;> simp [h]
    · exact h

theorem receiptDatePass_preserves (ct : Str) (d : ParsedData) (f : Field) (v : Str)
    (h : getF d f = some v) (hv : v ≠ []) :
    getF (receiptDatePass ct d) f = some v := by
  cases f <;> simp only [getF] at h ⊢ <;> unfold receiptDatePass
  case dateIssued => rw [h, unsetF_some_of_ne v hv]; simp [h]
  all_goals
    split
    · split <;> (try split) <;> simp [h]
    · exact h

/-! ### The primary extractor only stores non-empty values -/

theorem acceptPattern_nonempty (f : Field) (line : Str) (re : RE) (v : Str)
    (h : acceptPattern f line re = some v) : v ≠ [] := by
  unfold acceptPattern at h
  split at h
  · simp at h
  · dsimp only at h
    split at h
    · simp at h
    · split at h
      · split at h
        · rw [Option.some.injEq] at h
          subst h
          exact List.length_pos.mp (by assumption)
        · simp at h
      · simp at h

theorem extractField_nonempty (f : Field) (lines : List Str) (v : Str)
    (h : extractField f lines = some v) : v ≠ [] := by
  unfold extractField at h
  obtain ⟨line, _, hline⟩ := List.exists_of_findSome?_eq_some h
  obtain ⟨re, _, hre⟩ := List.exists_of_findSome?_eq_some hline
  exact acceptPattern_nonempty f line re v hre

end OCR
namespace OCR

/-! ### Claim theorems -/

/-- C1: for the OCR text "Mr. NIKHIL SUREDRA PATIL (OPEN)" / "Receipt No:
123456" / "June 27, 2025" on three lines, the code extracts studentName
"NIKHIL SUREDRA PATIL" (parenthetical and honorific removed) and
certificateNumber "123456" as the claim states, but dateIssued comes out
as "27, 2025", not the claimed "27/06/2025": the date capture group drops
the month word, so the comma-branch conversion of lines 205-217 can never
find a month name in the captured text. -/
theorem c1_receipt_scenario_code_result :
    parseCertificateText
        "Mr. NIKHIL SUREDRA PATIL (OPEN)\nReceipt No: 123456\nJune 27, 2025".toList =
      { studentName := some "NIKHIL SUREDRA PATIL".toList,
        certificateNumber := some "123456".toList,
        dateIssued := some "27, 2025".toList } ∧
    "27, 2025".toList ≠ "27/06/2025".toList :=
  ⟨by decide, by decide⟩

/-- C2: the input "June 27, 2025" yields dateIssued "27, 2025", not the
claimed "27/06/2025"; the already-numeric "15/08/2024" does pass through
unchanged as claimed.  The third conjunct shows that the cleanup itself
would produce "27/06/2025" had the captured text included the month word
— the slip is the capture group, not the conversion. -/
theorem c2_date_normalization_code_result :
    (parseCertificateText "June 27, 2025".toList).dateIssued = some "27, 2025".toList ∧
    (parseCertificateText "15/08/2024".toList).dateIssued = some "15/08/2024".toList ∧
    cleanupDateIssued "June 27, 2025".toList = "27/06/2025".toList :=
  ⟨by decide, by decide, by decide⟩

/-- C3: every field assigned by the primary per-line extractor survives
all five fallback passes unchanged: the primary extractor stores only
non-empty values, and each fallback pass assigns a field only when the
field is still falsy (absent or empty) at the time it runs. -/
theorem c3_fallbacks_never_overwrite_primary (text : Str) (f : Field) (v : Str)
    (h : getF (extractPrimary (normalize text).lines) f = some v) :
    getF (parseCertificateText text) f = some v := by
  have hv : v ≠ [] := by
    cases f <;> exact extractField_nonempty _ _ _ h
  show getF (receiptDatePass (cleanTextOf text) (receiptNamePass (cleanTextOf text)
    (extractFromFormFields (cleanTextOf text) (instFallback (cleanTextOf text)
      (rollFallback (cleanTextOf text)
        (extractPrimary (linesOf (cleanTextOf text)))))))) f = some v
  exact receiptDatePass_preserves _ _ _ _
    (receiptNamePass_preserves _ _ _ _
      (extractFromFormFields_preserves _ _ _ _
        (instFallback_preserves _ _ _ _
          (rollFallback_preserves _ _ _ _ h hv) hv) hv) hv) hv

/-- Witness for C3: on "Receipt No: 123456" the primary extractor sets
certificateNumber to "123456" and the full parser returns it unchanged. -/
theorem c3_witness :
    getF (extractPrimary (normalize "Receipt No: 123456".toList).lines)
        Field.certificateNumber = some "123456".toList ∧
    getF (parseCertificateText "Receipt No: 123456".toList)
        Field.certificateNumber = some "123456".toList :=
  ⟨by decide, c3_fallbacks_never_overwrite_primary _ _ _ (by decide)⟩

/-- Counterexample to C4: the form-field pass runs before the two
receipt-format passes, not after them.  On this input the form-field name
pattern accepts "(JOSHI)" while the receipt-name pattern would produce
"ANIL JOSHI"; the code returns the form-field value, the claimed order
would return the receipt value. -/
theorem c4_counterexample :
    (parseCertificateText "name: SCHOOL (JOSHI) Mr. Ms. ANIL JOSHI".toList).studentName =
        some "(JOSHI)".toList ∧
    (parseCertificateTextClaimOrder "name: SCHOOL (JOSHI) Mr. Ms. ANIL JOSHI".toList).studentName =
        some "ANIL JOSHI".toList ∧
    parseCertificateText "name: SCHOOL (JOSHI) Mr. Ms. ANIL JOSHI".toList ≠
      parseCertificateTextClaimOrder "name: SCHOOL (JOSHI) Mr. Ms. ANIL JOSHI".toList := by
  have h1 : (parseCertificateText "name: SCHOOL (JOSHI) Mr. Ms. ANIL JOSHI".toList).studentName =
      some "(JOSHI)".toList := by decide
  have h2 : (parseCertificateTextClaimOrder
      "name: SCHOOL (JOSHI) Mr. Ms. ANIL JOSHI".toList).studentName =
      some "ANIL JOSHI".toList := by decide
  refine ⟨h1, h2, fun hc => ?_⟩
  rw [hc, h2] at h1
  exact absurd h1 (by decide)

/-- C4 amended: after the primary extractor the fallback passes run in
the order generic roll/certificate, generic institution, form-field
labels, receipt-format name, receipt-format date — the form-field pass
third, before both receipt-format passes. -/
theorem c4_fallback_order_amended (text : Str) :
    parseCertificateText text = runFallbackPasses text := rfl

/-- C5: for "XYZ Institute of Technology" on one line and "Mr. RAJESH
KUMAR" on the next, studentName resolves to "RAJESH KUMAR", which
contains neither "Institute" nor "Technology". -/
theorem c5_name_institution_disambiguation :
    (parseCertificateText "XYZ Institute of Technology\nMr. RAJESH KUMAR".toList).studentName =
        some "RAJESH KUMAR".toList ∧
    containsSub "Institute".toList "RAJESH KUMAR".toList = false ∧
    containsSub "Technology".toList "RAJESH KUMAR".toList = false :=
  ⟨by decide, by decide, by decide⟩

/-- Counterexample to C6: the cleaning regex keeps `\w`, which includes
the underscore, so normalising "_" leaves the underscore in place, while
the claim's allow-list `[A-Za-z0-9\s\-.,/:()]` would replace it with a
space and trim it away. -/
theorem c6_counterexample :
    cleanTextOf "_".toList = "_".toList ∧ cleanTextClaim "_".toList = [] :=
  ⟨by decide, by decide⟩

/-- C6 amended: normalization replaces every character outside
`[A-Za-z0-9_\s\-.,/:()]` — underscore included, via `\w` — with a space,
collapses whitespace, trims, and splits into trimmed non-empty lines. -/
theorem c6_normalization_amended (text : Str) : normalize text = normalizeAmended text := by
  have hall : isAllowedKeep = isAllowedAmended := by
    funext c
    simp [isAllowedKeep, isAllowedAmended, isWordC, Bool.or_assoc]
  simp [normalize, normalizeAmended, cleanTextOf, linesOf, hall]

/-- Counterexample to C7: a PDF upload is rejected without invoking the
OCR engine, but the `UnsupportedFileType` message is swallowed by the
catch-all of lines 62-65 and the caller receives the generic
extraction-failure message instead of the unsupported-file-type one. -/
theorem c7_counterexample :
    extractText (some { text := "x".toList, confidence := 50 })
        { type := "application/pdf".toList } =
      (Except.error extractionFailureMsg, false) ∧
    extractionFailureMsg ≠ unsupportedTypeMsg :=
  ⟨rfl, by decide⟩

/-- C7 amended: for any file whose declared media type is outside the
accepted image set, extractText fails without performing an OCR call, and
the error surfaced to the caller is the generic extraction-failure
message (the unsupported-type error is caught and rethrown). -/
theorem c7_unsupported_type_amended (ocr : Option OCRRun) (file : JSFile)
    (h : isValidFileType file = false) :
    extractText ocr file = (Except.error extractionFailureMsg, false) := by
  unfold extractText extractTextInner
  rw [h]
  simp

/-- Witness for C7 at a PDF file with a failing engine. -/
theorem c7_witness :
    extractText none { type := "application/pdf".toList } =
      (Except.error extractionFailureMsg, false) :=
  c7_unsupported_type_amended none _ (by decide)

/-- C8: the validator requires studentName, one of studentRoll or
certificateNumber, and institutionName; the empty record produces exactly
the three error messages, a record with name, roll and institution is
valid, and in general isValid holds exactly when the error list is empty,
each missing requirement contributing exactly one message. -/
theorem c8_validator :
    validateExtractedData {} =
      { isValid := false,
        errors := ["Student name not found".toList,
                   "Roll number or certificate number not found".toList,
                   "Institution name not found".toList] } ∧
    validateExtractedData
        { studentName := some "A".toList, studentRoll := some "B".toList,
          institutionName := some "C".toList } =
      { isValid := true, errors := [] } ∧
    ∀ d : ParsedData,
      ((validateExtractedData d).isValid = true ↔ (validateExtractedData d).errors = []) ∧
      (validateExtractedData d).errors.length =
        ((if unsetF d.studentName then 1 else 0) +
         (if unsetF d.studentRoll && unsetF d.certificateNumber then 1 else 0) +
         (if unsetF d.institutionName then 1 else 0)) := by
  refine ⟨by decide, by decide, fun d => ⟨?_, ?_⟩⟩
  · by_cases h1 : unsetF d.studentName <;>
      by_cases h2 : (unsetF d.studentRoll && unsetF d.certificateNumber) = true <;>
        by_cases h3 : unsetF d.institutionName <;>
          simp [validateExtractedData, h1, h2, h3]
  · by_cases h1 : unsetF d.studentName <;>
      by_cases h2 : (unsetF d.studentRoll && unsetF d.certificateNumber) = true <;>
        by_cases h3 : unsetF d.institutionName <;>
          simp [validateExtractedData, h1, h2, h3]

/-- C9: normalization is idempotent — re-normalising the cleaned text
reproduces the same cleaned text and the same lines. -/
theorem c9_normalize_idempotent (text : Str) :
    normalize (normalize text).cleanedText = normalize text := by
  have h := cleanTextOf_idem text
  simp [normalize, h]

/-- C10: the whitespace collapse replaces every newline before the split,
so the lines list is [cleanedText] when the cleaned text is non-empty and
empty otherwise — the primary extractor always sees a single line. -/
theorem c10_single_line (text : Str) :
    (normalize text).lines =
      (if (normalize text).cleanedText.isEmpty then [] else [(normalize text).cleanedText]) ∧
    (normalize text).lines.length ≤ 1 := by
  have h := linesOf_cleanTextOf text
  have h' : (normalize text).lines =
      if (normalize text).cleanedText.isEmpty then [] else [(normalize text).cleanedText] := by
    simpa [normalize] using h
  refine ⟨h', ?_⟩
  rw [h']
  split <;> simp

end OCR
